import Mathlib

/-!
Shallow embedding of the blog-crawl analysis program (src/analysis.py).

Python strings are modelled as Lean `String`; the string helpers below model
the Python primitives (`str.strip`, `str.lower`, `str.endswith`, `str.split`,
and the concrete `re` patterns the program uses) as structurally recursive
functions over `List Char`, so every definition evaluates by `decide`.

The markup-query library (BeautifulSoup) is an external collaborator: a post
fragment (`<article>` entry) is modelled as the record of the query results
the program reads from it (`Fragment` below), except for the children of the
`entry-content` div, which are kept as a markup tree (`Node`) because the
program walks them and uses `element.string` / `get_text()` recursively.
-/

/-! ### Python string primitives -/

/-- ASCII whitespace recognised by Python's `str.strip` and the regex class
`\s`. -/
def isPySpace (c : Char) : Bool :=
  c = ' ' || c = '\t' || c = '\n' || c = '\r' || c = '\x0b' || c = '\x0c'

/-- A character of the regex class `\w` (ASCII range). -/
def isWordChar (c : Char) : Bool :=
  c.isAlphanum || c = '_'

/-- Python `str.strip()` on the character list. -/
def pyStrip (cs : List Char) : List Char :=
  ((cs.dropWhile isPySpace).reverse.dropWhile isPySpace).reverse

/-- Python `str.strip()`. -/
def pyStripS (s : String) : String :=
  String.mk (pyStrip s.toList)

/-- Python `str.lower()` (ASCII range). -/
def pyLower (cs : List Char) : List Char :=
  cs.map Char.toLower

/-- Python `str.lower()`. -/
def pyLowerS (s : String) : String :=
  String.mk (pyLower s.toList)

/-- Python `str.endswith(pat)`. -/
def pyEndsWith (pat : String) (s : String) : Bool :=
  pat.toList.isSuffixOf s.toList

/-- Does `pat` occur as a contiguous run inside `cs`?  Models a successful
`re.search` for a plain-text pattern. -/
def hasSubSeq (pat : List Char) : List Char → Bool
  | [] => pat.isEmpty
  | c :: cs => pat.isPrefixOf (c :: cs) || hasSubSeq pat cs

/-- Python `str.split(sep)` for a one-character separator. -/
def pySplitOn (sep : Char) : List Char → List (List Char)
  | [] => [[]]
  | c :: cs =>
    if c = sep then [] :: pySplitOn sep cs
    else
      match pySplitOn sep cs with
      | h :: t => (c :: h) :: t
      | [] => [[c]]

/-- Numeric value of a run of decimal digits (Python `int` on the captured
group of `(\d+)`). -/
def digitsToNat (cs : List Char) : Nat :=
  cs.foldl (fun n c => n * 10 + (c.toNat - 48)) 0

/-! ### Dates

Models `datetime.strptime(s, '%Y-%m-%d')` followed by the `datetime`
constructor's range validation, returning `none` where Python raises
`ValueError`. -/

structure Date where
  year : Nat
  month : Nat
  day : Nat
deriving DecidableEq

/-- Gregorian leap-year rule used by `datetime`. -/
def isLeapYear (y : Nat) : Bool :=
  (y % 4 = 0 && y % 100 ≠ 0) || y % 400 = 0

/-- Number of days of month `m` of year `y`. -/
def daysInMonth (y m : Nat) : Nat :=
  if m = 2 then (if isLeapYear y then 29 else 28)
  else if m = 4 ∨ m = 6 ∨ m = 9 ∨ m = 11 then 30
  else 31

/-- `datetime.strptime(s, '%Y-%m-%d')`: a four-digit year, one- or two-digit
month and day separated by `-`, nothing left over, and the values in the
calendar ranges `datetime` accepts; `none` models a raised `ValueError`. -/
def parseYMD (s : String) : Option Date :=
  match pySplitOn '-' s.toList with
  | [ys, ms, ds] =>
    if ys.all Char.isDigit ∧ ys.length = 4 ∧
       ms.all Char.isDigit ∧ 1 ≤ ms.length ∧ ms.length ≤ 2 ∧
       ds.all Char.isDigit ∧ 1 ≤ ds.length ∧ ds.length ≤ 2 then
      let y := digitsToNat ys
      let m := digitsToNat ms
      let d := digitsToNat ds
      if 1 ≤ y ∧ 1 ≤ m ∧ m ≤ 12 ∧ 1 ≤ d ∧ d ≤ daysInMonth y m then
        some ⟨y, m, d⟩
      else none
    else none
  | _ => none

/-- `datetime.strptime(date_elem['datetime'][:10], '%Y-%m-%d')`: the
program truncates the attribute to its first ten characters before parsing. -/
def parseDate10 (s : String) : Option Date :=
  parseYMD (String.mk (s.toList.take 10))

/-- `datetime` comparison restricted to dates (the program only builds
midnight datetimes): lexicographic on (year, month, day). -/
def Date.lt (a b : Date) : Bool :=
  if a.year ≠ b.year then decide (a.year < b.year)
  else if a.month ≠ b.month then decide (a.month < b.month)
  else decide (a.day < b.day)

/-! ### Markup nodes

Children of the `entry-content` div, as BeautifulSoup presents them:
`text` is a `NavigableString` (whose `.name` is `None` and whose `.string`
is itself), `elem` is a `Tag`. -/

inductive Node where
  | text (s : String)
  | elem (tag : String) (children : List Node)

/-- BeautifulSoup `element.name`: `None` for a `NavigableString`. -/
def Node.name : Node → Option String
  | .text _ => none
  | .elem tag _ => some tag

/-- BeautifulSoup `element.string`: a `NavigableString` is its own string; a
`Tag` with exactly one child recurses into it; any other `Tag` has no
string. -/
def Node.string : Node → Option String
  | .text s => some s
  | .elem _ [c] => Node.string c
  | .elem _ _ => none

/-- BeautifulSoup `element.get_text()`: concatenation of all descendant
strings in document order. -/
def Node.getText : Node → String
  | .text s => s
  | .elem _ cs => go cs
where go : List Node → String
  | [] => ""
  | c :: cs => Node.getText c ++ go cs

/-! ### Post fragments

One `<article>` entry, recorded as the results of the markup queries
`process_page` and the field extractors perform on it. -/

structure Fragment where
  /-- `entry.find('time')['datetime']` when the entry has a `time` element
  carrying a `datetime` attribute; `none` when the element or the attribute
  is missing (the two cases the code treats identically). -/
  timeDatetime : Option String
  /-- `.text` of `entry.find('h1') or entry.find('h2')`; `none` when neither
  heading exists. -/
  titleText : Option String
  /-- Children (`.contents`) of `entry.find('div', class_='entry-content')`;
  `none` when the entry has no such div. -/
  contentDiv : Option (List Node)
  /-- `entry.strings`: all text nodes under the entry in document order. -/
  strings : List String
  /-- `entry.find('a')`: `none` when the entry has no hyperlink,
  `some none` when the first hyperlink has no `href` attribute,
  `some (some h)` when its `href` is `h`. -/
  firstAHref : Option (Option String)

/-! ### Field extraction (src/analysis.py) -/

/-- One step of the loop over `content_div.contents` in
`extract_content_sections`: a `blockquote` sets the in-blockquote flag and is
skipped; otherwise a `p` or `div` clears a set flag; then the element's own
`.string`, when present and non-empty, is stripped and appended provided the
flag is clear. -/
def sectionStep (st : Bool × List String) (el : Node) : Bool × List String :=
  let (inBq, acc) := st
  if el.name = some "blockquote" then (true, acc)
  else
    let inBq2 := if inBq ∧ (el.name = some "p" ∨ el.name = some "div") then false else inBq
    match el.string with
    | some s => if inBq2 = false ∧ s ≠ "" then (inBq2, acc ++ [pyStripS s]) else (inBq2, acc)
    | none => (inBq2, acc)

/-- `' '.join(...)`. -/
def joinSpace : List String → String
  | [] => ""
  | [s] => s
  | s :: rest => s ++ " " ++ joinSpace rest

/-- `extract_content_sections(entry)`: the commentary built from the
non-blockquote sections, and whether the div's full text, stripped, ends with
`Recommended` (`re.search(r'Recommended\s*$', text.strip())`). -/
def extract_content_sections (f : Fragment) : String × Bool :=
  match f.contentDiv with
  | none => ("", false)
  | some elements =>
    let commentary :=
      joinSpace (((elements.foldl sectionStep (false, [])).2).filter (fun s => s ≠ ""))
    let fullText := pyStripS (Node.getText.go elements)
    (commentary, pyEndsWith "Recommended" fullText)

/-- Leftmost match of the regex `(\d+)\s+Comment` starting exactly here:
a non-empty digit run, a non-empty whitespace run, then the literal
`Comment`; the value is the digit run. -/
def countMatchAt (cs : List Char) : Option Nat :=
  let digits := cs.takeWhile Char.isDigit
  if digits = [] then none
  else
    let r1 := cs.drop digits.length
    let ws := r1.takeWhile isPySpace
    if ws = [] then none
    else if "Comment".toList.isPrefixOf (r1.drop ws.length) then
      some (digitsToNat digits)
    else none

/-- `re.search(r'(\d+)\s+Comment', s)`: try `countMatchAt` at each position,
left to right. -/
def searchCountNum : List Char → Option Nat
  | [] => none
  | c :: cs =>
    match countMatchAt (c :: cs) with
    | some n => some n
    | none => searchCountNum cs

/-- `extract_comment_count(entry)`: find the first text node whose stripped
text ends with `Comments` or `Comment`; extract `(\d+)\s+Comment` from it,
with the exact text `Comment` meaning one comment; otherwise zero. -/
def extract_comment_count (f : Fragment) : Nat :=
  let comment_text :=
    (f.strings.map pyStripS).find?
      (fun t => pyEndsWith "Comments" t || pyEndsWith "Comment" t)
  match comment_text with
  | some t =>
    match searchCountNum t.toList with
    | some n => n
    | none => if t = "Comment" then 1 else 0
  | none => 0

/-- Case-insensitive comparison of a prefix: does `cs` start with the
(lowercase) pattern, ignoring case? -/
def lowerPrefixOf (pat : List Char) (cs : List Char) : Bool :=
  pat.isPrefixOf (pyLower (cs.take pat.length))

/-- Match of the regex `my\s+(\w+)\s+conversation` (IGNORECASE) starting
exactly here; yields the captured `\w+` word in its original case. -/
def myConvAt (cs : List Char) : Option String :=
  match cs with
  | c1 :: c2 :: rest =>
    if c1.toLower = 'm' ∧ c2.toLower = 'y' then
      let ws1 := rest.takeWhile isPySpace
      if ws1 = [] then none
      else
        let r1 := rest.drop ws1.length
        let word := r1.takeWhile isWordChar
        if word = [] then none
        else
          let r2 := r1.drop word.length
          let ws2 := r2.takeWhile isPySpace
          if ws2 = [] then none
          else if lowerPrefixOf "conversation".toList (r2.drop ws2.length) then
            some (String.mk word)
          else none
    else none
  | _ => none

/-- `re.search(r'my\s+(\w+)\s+conversation', title, re.IGNORECASE)`:
leftmost match, returning the captured word. -/
def searchMyConv : List Char → Option String
  | [] => none
  | c :: cs =>
    match myConvAt (c :: cs) with
    | some w => some w
    | none => searchMyConv cs

/-- `entry.find('a')['href'] if entry.find('a') else ''`: the first
hyperlink's target, the empty string when the entry has no hyperlink, and
`none` — modelling the raised `KeyError` — when the first hyperlink carries
no `href` attribute. -/
def extract_url (f : Fragment) : Option String :=
  match f.firstAHref with
  | none => some ""
  | some none => none
  | some (some h) => some h

/-! ### Posts and page processing -/

structure Post where
  date : Date
  title : String
  commentary : String
  url : String
  title_qualifier : Option String
  comment_count : Nat
  ends_with_recommended : Bool
deriving DecidableEq

/-- The post dict appended by `process_page` once an entry has passed the
date and title checks; `none` models the `KeyError` raised while reading the
url. -/
def build_post (f : Fragment) (d : Date) (title : String) : Option Post :=
  let sections := extract_content_sections f
  let qualifier := searchMyConv title.toList
  let count := extract_comment_count f
  match extract_url f with
  | none => none
  | some u =>
    some { date := d, title := title, commentary := sections.1, url := u,
           title_qualifier := qualifier, comment_count := count,
           ends_with_recommended := sections.2 }

/-- State of the `for entry in entries` loop of `process_page`: still
scanning, returned early with the cutoff flag, or aborted by an exception. -/
inductive PageState where
  | running (posts : List Post)
  | stopped (posts : List Post)
  | failed
deriving DecidableEq

/-- One iteration of the entry loop of `process_page`: skip entries without a
usable `datetime`; parsing the truncated attribute raises on a malformed
string (`failed`); a date strictly before the cutoff returns early
(`stopped`); entries without a heading or whose stripped title misses the
pattern are skipped; otherwise the built post is appended. -/
def entryStep (pattern : String → Bool) (cutoff : Date) (st : PageState) (e : Fragment) :
    PageState :=
  match st with
  | .stopped ps => .stopped ps
  | .failed => .failed
  | .running ps =>
    match e.timeDatetime with
    | none => .running ps
    | some ds =>
      match parseDate10 ds with
      | none => .failed
      | some d =>
        if Date.lt d cutoff then .stopped ps
        else
          match e.titleText with
          | none => .running ps
          | some t =>
            let title := pyStripS t
            if pattern title then
              match build_post e d title with
              | none => .failed
              | some p => .running (ps ++ [p])
            else .running ps

/-- `process_page(html, podcast_pattern, cutoff_date)`: falsy html yields no
posts; otherwise the entries are scanned left to right, the `running` and
`stopped` final states yield the accumulated posts with the cutoff flag, and
`failed` (`none` here) models an exception escaping `process_page`. -/
def process_page (html : Option (List Fragment)) (pattern : String → Bool) (cutoff : Date) :
    Option (List Post × Bool) :=
  match html with
  | none => some ([], false)
  | some entries =>
    match entries.foldl (entryStep pattern cutoff) (PageState.running []) with
    | .running ps => some (ps, false)
    | .stopped ps => some (ps, true)
    | .failed => none

/-! ### Crawl coordination -/

/-- The compiled pattern
`my(?:\s+\w+)?\s+conversation(?:\s+(?:is|with))?|conversation(?:\s+(?:is|with))?`
(IGNORECASE): `re.search` with it succeeds exactly when `conversation` occurs
case-insensitively in the title, since the second alternative matches the
bare word anywhere and both alternatives contain it. -/
def podcastPatternMatches (title : String) : Bool :=
  hasSubSeq "conversation".toList (pyLower title.toList)

/-- `cutoff_date = datetime(2024, 1, 1)` of `get_blog_posts`. -/
def cutoffDate2024 : Date := ⟨2024, 1, 1⟩

/-- What one completed fetch contributes in the `as_completed` loop of
`get_blog_posts`: a falsy fetch result is skipped, an exception escaping
`process_page` is caught and contributes nothing, otherwise the page's
posts and cutoff flag. -/
def eventOutcome (pattern : String → Bool) (cutoff : Date)
    (ev : Option (List Fragment)) : List Post × Bool :=
  match ev with
  | none => ([], false)
  | some frags =>
    match process_page (some frags) pattern cutoff with
    | none => ([], false)
    | some r => r

/-- The `for future in as_completed(...)` loop of `get_blog_posts`, over the
fetch results in completion order: accumulate each completed page's posts
and break out of the loop as soon as a page reports the cutoff. -/
def crawl_loop (pattern : String → Bool) (cutoff : Date) :
    List (Option (List Fragment)) → List Post → List Post
  | [], acc => acc
  | ev :: rest, acc =>
    match ev with
    | none => crawl_loop pattern cutoff rest acc
    | some frags =>
      match process_page (some frags) pattern cutoff with
      | none => crawl_loop pattern cutoff rest acc
      | some (posts, reached) =>
        if reached then acc ++ posts
        else crawl_loop pattern cutoff rest (acc ++ posts)

/-- `get_blog_posts`, abstracted over the fetch results listed in completion
order (the thread pool delivers them in arbitrary order; the politeness sleep
does not affect the result). -/
def get_blog_posts (events : List (Option (List Fragment))) : List Post :=
  crawl_loop podcastPatternMatches cutoffDate2024 events []

/-! ### Annotation stage (analyze_posts) -/

structure AnnotatedPost where
  date : Date
  title : String
  qualifiers : List String
  sentiment_score : Rat
  url : String
  title_qualifier : Option String
  comment_count : Nat
  ends_with_recommended : Bool
deriving DecidableEq

/-- `re.search(r'excellent', s, re.IGNORECASE)` and its kin: case-insensitive
substring search for a plain lowercase pattern. -/
def ciSearch (pat : String) (s : String) : Bool :=
  hasSubSeq pat.toList (pyLower s.toList)

/-- Is the head of `cs` (when any) a word-boundary, i.e. not a `\w`
character? -/
def headBoundary : List Char → Bool
  | [] => true
  | c :: _ => !isWordChar c

/-- Scan for the regex `\b pat \b` where `pat` is purely alphabetic:
`prevWord` records whether the character just before the current position is
a `\w` character. -/
def wordSearchFrom (pat : List Char) : Bool → List Char → Bool
  | _, [] => false
  | prevWord, c :: cs =>
    (!prevWord && pat.isPrefixOf (c :: cs) && headBoundary ((c :: cs).drop pat.length))
      || wordSearchFrom pat (isWordChar c) cs

/-- `re.search(rf'\b{qualifier}\b', s, re.IGNORECASE)` for the alphabetic
qualifier words the program scans for. -/
def wordSearch (pat : String) (s : String) : Bool :=
  wordSearchFrom (pyLower pat.toList) false (pyLower s.toList)

/-- The fixed scan list `other_qualifiers` of `analyze_posts`. -/
def otherQualifiers : List String :=
  ["fascinating", "wonderful", "great", "outstanding", "remarkable", "contentious"]

/-- The `excellent` test of `analyze_posts`: case-insensitive occurrence in
the title or the commentary. -/
def excellentMatch (p : Post) : Bool :=
  ciSearch "excellent" p.title || ciSearch "excellent" p.commentary

/-- The whole-word test of `analyze_posts` for one of the other qualifiers:
`\b q \b`, case-insensitive, against the title or the commentary. -/
def bodyMatch (p : Post) (q : String) : Bool :=
  wordSearch q p.title || wordSearch q p.commentary

/-- The seed of the qualifiers list: the lowercased title qualifier when the
post carries a truthy (non-empty) one. -/
def titleQualifierPart (p : Post) : List String :=
  match p.title_qualifier with
  | some q => if q ≠ "" then [pyLowerS q] else []
  | none => []

/-- The qualifiers list built for one post by `analyze_posts`: the seeded
title qualifier, then `excellent` when matched and not already present, then
each other qualifier in scan order when matched and not already present. -/
def qualifiersOf (p : Post) : List String :=
  let qs0 := titleQualifierPart p
  let qs1 :=
    if excellentMatch p ∧ "excellent" ∉ qs0 then qs0 ++ ["excellent"] else qs0
  otherQualifiers.foldl
    (fun qs q => if bodyMatch p q ∧ q ∉ qs then qs ++ [q] else qs) qs1

/-- The record appended for one post by `analyze_posts`; the sentiment
collaborator (`TextBlob(...).sentiment.polarity`) is the parameter `score`
and is consulted only when the commentary is truthy (non-empty). -/
def annotatePost (score : String → Rat) (p : Post) : AnnotatedPost :=
  { date := p.date
    title := p.title
    qualifiers := qualifiersOf p
    sentiment_score := if p.commentary ≠ "" then score p.commentary else 0
    url := p.url
    title_qualifier := p.title_qualifier
    comment_count := p.comment_count
    ends_with_recommended := p.ends_with_recommended }

/-- `analyze_posts(posts)`: an empty input yields the empty table; otherwise
one annotated record is appended per post, in order. -/
def analyze_posts (score : String → Rat) (posts : List Post) : List AnnotatedPost :=
  if posts = [] then []
  else posts.foldl (fun results post => results ++ [annotatePost score post]) []

/-! ### Concrete fragments and posts used by the witnesses -/

/-- A fragment that passes every check and yields `postGood`. -/
def fragGood : Fragment :=
  { timeDatetime := some "2024-05-01"
    titleText := some " My Excellent Conversation with Alice "
    contentDiv := some [Node.elem "p" [Node.text "Self recommending!"]]
    strings := ["8 Comments"]
    firstAHref := some (some "http://x") }

/-- The post `process_page` builds from `fragGood`. -/
def postGood : Post :=
  { date := ⟨2024, 5, 1⟩, title := "My Excellent Conversation with Alice",
    commentary := "Self recommending!", url := "http://x",
    title_qualifier := some "Excellent", comment_count := 8,
    ends_with_recommended := false }

/-- A fragment dated strictly before the 2024 cutoff. -/
def fragOld : Fragment :=
  { timeDatetime := some "2020-01-01", titleText := some "t",
    contentDiv := none, strings := [], firstAHref := none }

/-- A fragment whose `datetime` attribute does not parse. -/
def fragBadDate : Fragment :=
  { timeDatetime := some "not-a-date", titleText := some "t",
    contentDiv := none, strings := [], firstAHref := none }

/-- A fragment with no usable `datetime` attribute. -/
def fragNoDate : Fragment :=
  { timeDatetime := none, titleText := some "t",
    contentDiv := none, strings := [], firstAHref := none }

/-- A matching fragment whose first hyperlink carries no `href`. -/
def fragNoHref : Fragment :=
  { timeDatetime := some "2024-05-01",
    titleText := some "My Excellent Conversation with Bob",
    contentDiv := none, strings := [], firstAHref := some none }

/-- A fragment whose only text node is `8 Comments`. -/
def fragComments8 : Fragment :=
  { timeDatetime := none, titleText := none, contentDiv := none,
    strings := ["8 Comments"], firstAHref := none }

/-- A fragment whose only text node is exactly `Comment`. -/
def fragComment1 : Fragment :=
  { timeDatetime := none, titleText := none, contentDiv := none,
    strings := ["Comment"], firstAHref := none }

/-- A fragment whose only text node is `12 Comments, updated`. -/
def fragComments12 : Fragment :=
  { timeDatetime := none, titleText := none, contentDiv := none,
    strings := ["12 Comments, updated"], firstAHref := none }

/-- A post with an empty commentary. -/
def postEmptyBody : Post :=
  { date := ⟨2024, 5, 1⟩, title := "t", commentary := "", url := "",
    title_qualifier := none, comment_count := 0, ends_with_recommended := false }

/-- The `excellent` element the annotation stage appends when it is matched
and not already present. -/
def excellentPart (p : Post) : List String :=
  if excellentMatch p ∧ "excellent" ∉ titleQualifierPart p then ["excellent"] else []

/-! ### Shared lemmas about the page scan -/

theorem foldl_entryStep_stopped (pattern : String → Bool) (cutoff : Date)
    (l : List Fragment) (ps : List Post) :
    l.foldl (entryStep pattern cutoff) (PageState.stopped ps) = PageState.stopped ps := by
  induction l with
  | nil => rfl
  | cons e rest ih => exact ih

theorem foldl_entryStep_failed (pattern : String → Bool) (cutoff : Date)
    (l : List Fragment) :
    l.foldl (entryStep pattern cutoff) PageState.failed = PageState.failed := by
  induction l with
  | nil => rfl
  | cons e rest ih => exact ih

theorem build_post_date (f : Fragment) (d : Date) (t : String) (p : Post)
    (h : build_post f d t = some p) : p.date = d := by
  unfold build_post at h
  cases hu : extract_url f with
  | none => rw [hu] at h; exact absurd h (by simp)
  | some u => rw [hu] at h; cases h; rfl

theorem entryStep_running_shape (pattern : String → Bool) (cutoff : Date)
    (ps : List Post) (e : Fragment) :
    entryStep pattern cutoff (PageState.running ps) e = PageState.running ps
  ∨ (∃ p, entryStep pattern cutoff (PageState.running ps) e = PageState.running (ps ++ [p])
        ∧ Date.lt p.date cutoff = false)
  ∨ entryStep pattern cutoff (PageState.running ps) e = PageState.stopped ps
  ∨ entryStep pattern cutoff (PageState.running ps) e = PageState.failed := by
  cases h1 : e.timeDatetime with
  | none => exact Or.inl (by simp [entryStep, h1])
  | some ds =>
    cases h2 : parseDate10 ds with
    | none => exact Or.inr (Or.inr (Or.inr (by simp [entryStep, h1, h2])))
    | some d =>
      by_cases h3 : Date.lt d cutoff = true
      · exact Or.inr (Or.inr (Or.inl (by simp [entryStep, h1, h2, h3])))
      · have h3f : Date.lt d cutoff = false := Bool.not_eq_true _ ▸ h3
        cases h4 : e.titleText with
        | none => exact Or.inl (by simp [entryStep, h1, h2, h3f, h4])
        | some t =>
          by_cases h5 : pattern (pyStripS t) = true
          · cases h6 : build_post e d (pyStripS t) with
            | none =>
              exact Or.inr (Or.inr (Or.inr (by simp [entryStep, h1, h2, h3f, h4, h5, h6])))
            | some p =>
              refine Or.inr (Or.inl ⟨p, ?_, ?_⟩)
              · simp [entryStep, h1, h2, h3f, h4, h5, h6]
              · rw [build_post_date e d (pyStripS t) p h6, h3f]
          · have h5f : pattern (pyStripS t) = false := Bool.not_eq_true _ ▸ h5
            exact Or.inl (by simp [entryStep, h1, h2, h3f, h4, h5f])

theorem foldl_entryStep_dates (pattern : String → Bool) (cutoff : Date) :
    ∀ (l : List Fragment) (acc ps : List Post),
      (∀ p ∈ acc, Date.lt p.date cutoff = false) →
      (l.foldl (entryStep pattern cutoff) (PageState.running acc) = PageState.running ps ∨
       l.foldl (entryStep pattern cutoff) (PageState.running acc) = PageState.stopped ps) →
      ∀ p ∈ ps, Date.lt p.date cutoff = false := by
  intro l
  induction l with
  | nil =>
    intro acc ps hacc hfold p hp
    rcases hfold with h | h
    · injection h with h; subst h; exact hacc p hp
    · exact absurd h (by simp)
  | cons e rest ih =>
    intro acc ps hacc hfold p hp
    rcases entryStep_running_shape pattern cutoff acc e with h | ⟨q, h, hq⟩ | h | h
    · rw [List.foldl_cons, h] at hfold
      exact ih acc ps hacc hfold p hp
    · rw [List.foldl_cons, h] at hfold
      refine ih (acc ++ [q]) ps ?_ hfold p hp
      intro r hr
      rcases List.mem_append.mp hr with h1 | h1
      · exact hacc r h1
      · rw [List.mem_singleton.mp h1]
        exact hq
    · rw [List.foldl_cons, h, foldl_entryStep_stopped] at hfold
      rcases hfold with h2 | h2
      · exact absurd h2 (by simp)
      · injection h2 with h2; subst h2; exact hacc p hp
    · rw [List.foldl_cons, h, foldl_entryStep_failed] at hfold
      rcases hfold with h2 | h2 <;> exact absurd h2 (by simp)

/-! ### Claim theorems -/

/-- C1: when the page scan reaches a fragment whose parsed date is strictly
before the cutoff, `process_page` stops there and returns exactly the posts
accumulated so far from this page with `cutoff_reached = true`; and no post
returned by `process_page` is ever dated strictly before the cutoff. -/
theorem c1_cutoff_early_stop (pattern : String → Bool) (cutoff : Date) :
    (∀ (es1 es2 : List Fragment) (e : Fragment) (ps : List Post) (ds : String) (d : Date),
        es1.foldl (entryStep pattern cutoff) (PageState.running []) = PageState.running ps →
        e.timeDatetime = some ds →
        parseDate10 ds = some d →
        Date.lt d cutoff = true →
        process_page (some (es1 ++ e :: es2)) pattern cutoff = some (ps, true))
  ∧ (∀ (html : Option (List Fragment)) (ps : List Post) (b : Bool),
        process_page html pattern cutoff = some (ps, b) →
        ∀ p ∈ ps, Date.lt p.date cutoff = false) := by
  constructor
  · intro es1 es2 e ps ds d h1 h2 h3 h4
    have hstep : entryStep pattern cutoff (PageState.running ps) e = PageState.stopped ps := by
      simp [entryStep, h2, h3, h4]
    simp only [process_page]
    rw [List.foldl_append, h1, List.foldl_cons, hstep, foldl_entryStep_stopped]
  · intro html ps b hpage p hp
    cases html with
    | none =>
      simp only [process_page, Option.some.injEq, Prod.mk.injEq] at hpage
      obtain ⟨hps, hb⟩ := hpage
      subst hps
      exact absurd hp (by simp)
    | some entries =>
      simp only [process_page] at hpage
      cases hfold : entries.foldl (entryStep pattern cutoff) (PageState.running []) with
      | running qs =>
        rw [hfold] at hpage
        simp only [Option.some.injEq, Prod.mk.injEq] at hpage
        obtain ⟨hq, hb⟩ := hpage
        subst hq
        exact foldl_entryStep_dates pattern cutoff entries [] qs (by simp)
          (Or.inl hfold) p hp
      | stopped qs =>
        rw [hfold] at hpage
        simp only [Option.some.injEq, Prod.mk.injEq] at hpage
        obtain ⟨hq, hb⟩ := hpage
        subst hq
        exact foldl_entryStep_dates pattern cutoff entries [] qs (by simp)
          (Or.inr hfold) p hp
      | failed =>
        rw [hfold] at hpage
        exact absurd hpage (by simp)

/-- C1 witness: a page whose first fragment yields `postGood` and whose
second is dated 2020 returns exactly `[postGood]` with the cutoff flag, and
that post is not dated before the cutoff. -/
theorem c1_cutoff_early_stop_witness :
    process_page (some ([fragGood] ++ fragOld :: [fragGood])) podcastPatternMatches cutoffDate2024
      = some ([postGood], true)
  ∧ ∀ p ∈ [postGood], Date.lt p.date cutoffDate2024 = false := by
  have h1 := (c1_cutoff_early_stop podcastPatternMatches cutoffDate2024).1
    [fragGood] [fragGood] fragOld [postGood] "2020-01-01" ⟨2020, 1, 1⟩
    (by decide) (by decide) (by decide) (by decide)
  exact ⟨h1, (c1_cutoff_early_stop podcastPatternMatches cutoffDate2024).2
    (some ([fragGood] ++ fragOld :: [fragGood])) [postGood] true h1⟩

/-- C2 counterexample: the text `12 Comments, updated` does not end with
`Comment`/`Comments`, so the scan never selects it and the count is 0, not
the claimed 12. -/
theorem c2_comment_count_counterexample :
    extract_comment_count fragComments12 = 0
  ∧ extract_comment_count fragComments12 ≠ 12 := by decide

/-- C2 (amended): comment-count extraction returns 8 for `8 Comments`, 1 for
the exact text `Comment`, and 0 for `12 Comments, updated` (the scan only
selects text nodes whose stripped text ends with `Comment` or `Comments`);
there is no hyperlink fallback, so whenever no text node's stripped text ends
that way the count is 0. -/
theorem c2_comment_count_rules (f : Fragment) :
    extract_comment_count fragComments8 = 8
  ∧ extract_comment_count fragComment1 = 1
  ∧ extract_comment_count fragComments12 = 0
  ∧ ((f.strings.map pyStripS).all
        (fun t => !(pyEndsWith "Comments" t || pyEndsWith "Comment" t)) = true →
      extract_comment_count f = 0) := by
  refine ⟨by decide, by decide, by decide, ?_⟩
  intro h
  cases hf : (f.strings.map pyStripS).find?
      (fun t => pyEndsWith "Comments" t || pyEndsWith "Comment" t) with
  | none => simp [extract_comment_count, hf]
  | some t =>
    exfalso
    have hp := List.find?_some hf
    have hm := List.mem_of_find?_eq_some hf
    have hall := List.all_eq_true.mp h t hm
    rw [hp] at hall
    exact absurd hall (by simp)

/-- C2 witness: a fragment with no text nodes at all has comment count 0. -/
theorem c2_comment_count_rules_witness :
    extract_comment_count fragNoDate = 0 ∧ extract_comment_count fragComments8 = 8 :=
  ⟨(c2_comment_count_rules fragNoDate).2.2.2 (by decide),
   (c2_comment_count_rules fragNoDate).1⟩

/-- C9 counterexample: a fragment whose first hyperlink carries no `href`
makes url extraction fail (a raised `KeyError`, `none` in the model) rather
than produce the empty string, and the failure aborts the page. -/
theorem c9_url_counterexample :
    extract_url fragNoHref = none
  ∧ process_page (some [fragNoHref]) podcastPatternMatches cutoffDate2024 = none := by decide

/-- C9 (amended): url extraction returns the first hyperlink's target when
that hyperlink has one, the empty string when the fragment has no hyperlink,
and fails (raising `KeyError`, which aborts the page) when the first
hyperlink carries no target attribute. -/
theorem c9_url_extraction (f : Fragment) :
    (f.firstAHref = none → extract_url f = some "")
  ∧ (∀ h, f.firstAHref = some (some h) → extract_url f = some h)
  ∧ (f.firstAHref = some none → extract_url f = none) := by
  refine ⟨?_, ?_, ?_⟩
  · intro h; simp [extract_url, h]
  · intro u h; simp [extract_url, h]
  · intro h; simp [extract_url, h]

/-- C9 witness: the three hyperlink shapes on concrete fragments. -/
theorem c9_url_extraction_witness :
    extract_url fragOld = some ""
  ∧ extract_url fragGood = some "http://x"
  ∧ extract_url fragNoHref = none :=
  ⟨(c9_url_extraction fragOld).1 rfl,
   (c9_url_extraction fragGood).2.1 "http://x" rfl,
   (c9_url_extraction fragNoHref).2.2 rfl⟩

/-- C10 counterexample: an element containing nested inline markup around a
single text node — `<p><em>foo</em></p>` — does contribute its text, because
`.string` unwraps single-child chains; the claim that such elements
contribute nothing is false. -/
theorem c10_nested_string_counterexample :
    Node.string (Node.elem "p" [Node.elem "em" [Node.text "foo"]]) = some "foo"
  ∧ (sectionStep (false, []) (Node.elem "p" [Node.elem "em" [Node.text "foo"]])).2
      = ["foo"] := by decide

/-- C10 (amended): an element contributes text exactly via `.string`: a text
node is its own string, an element with a single child takes the child's
string (so single-child chains of inline markup unwrap to the inner text),
and an element with zero or several children has no string and contributes
nothing to the accumulated sections. -/
theorem c10_single_chain_string :
    (∀ s, Node.string (Node.text s) = some s)
  ∧ (∀ tag c, Node.string (Node.elem tag [c]) = Node.string c)
  ∧ (∀ tag (cs : List Node), cs.length ≠ 1 → Node.string (Node.elem tag cs) = none)
  ∧ (∀ (b : Bool) (acc : List String) (el : Node), el.string = none →
        (sectionStep (b, acc) el).2 = acc) := by
  refine ⟨fun s => rfl, fun tag c => rfl, ?_, ?_⟩
  · intro tag cs h
    match cs with
    | [] => rfl
    | [c] => exact absurd rfl h
    | c1 :: c2 :: rest => rfl
  · intro b acc el h
    by_cases h1 : el.name = some "blockquote"
    · simp [sectionStep, h1]
    · simp [sectionStep, h1, h]

/-- C10 witness: an element with two children has no string and contributes
nothing. -/
theorem c10_single_chain_string_witness :
    Node.string (Node.elem "p" [Node.text "a", Node.text "b"]) = none
  ∧ (sectionStep (false, ["x"]) (Node.elem "p" [Node.text "a", Node.text "b"])).2 = ["x"] :=
  ⟨c10_single_chain_string.2.2.1 "p" [Node.text "a", Node.text "b"] (by decide),
   c10_single_chain_string.2.2.2 false ["x"] (Node.elem "p" [Node.text "a", Node.text "b"]) rfl⟩

/-- C4 counterexample: a fragment with a malformed datetime string aborts
the whole page (the raised `ValueError` is modelled by `none`), while the
same page without it yields a post — the malformed fragment is not merely
skipped. -/
theorem c4_malformed_date_counterexample :
    process_page (some [fragBadDate, fragGood]) podcastPatternMatches cutoffDate2024 = none
  ∧ process_page (some [fragGood]) podcastPatternMatches cutoffDate2024
      = some ([postGood], false) := by decide

/-- C4 (amended): a fragment with a missing date (no time element or no
datetime attribute) is skipped, leaving the scan state untouched, but a
malformed (unparseable) datetime string raises and aborts processing of the
entire page, so `process_page` yields no result for it. -/
theorem c4_parse_anomaly (pattern : String → Bool) (cutoff : Date) (e : Fragment) :
    (e.timeDatetime = none → ∀ st, entryStep pattern cutoff st e = st)
  ∧ (∀ ds, e.timeDatetime = some ds → parseDate10 ds = none →
      ∀ (es1 es2 : List Fragment) (ps : List Post),
        es1.foldl (entryStep pattern cutoff) (PageState.running []) = PageState.running ps →
        process_page (some (es1 ++ e :: es2)) pattern cutoff = none) := by
  constructor
  · intro h st
    cases st with
    | running ps => simp [entryStep, h]
    | stopped ps => rfl
    | failed => rfl
  · intro ds h1 h2 es1 es2 ps hfold
    have hstep : entryStep pattern cutoff (PageState.running ps) e = PageState.failed := by
      simp [entryStep, h1, h2]
    simp only [process_page]
    rw [List.foldl_append, hfold, List.foldl_cons, hstep, foldl_entryStep_failed]

/-- C4 witness: skipping a dateless fragment and aborting on a malformed
one, on concrete pages. -/
theorem c4_parse_anomaly_witness :
    entryStep podcastPatternMatches cutoffDate2024 (PageState.running []) fragNoDate
      = PageState.running []
  ∧ process_page (some ([fragGood] ++ fragBadDate :: [])) podcastPatternMatches cutoffDate2024
      = none :=
  ⟨(c4_parse_anomaly podcastPatternMatches cutoffDate2024 fragNoDate).1 rfl
     (PageState.running []),
   (c4_parse_anomaly podcastPatternMatches cutoffDate2024 fragBadDate).2 "not-a-date" rfl
     (by decide) [fragGood] [] [postGood] (by decide)⟩

/-- C5: a blockquote element sets the inside-quoted-block flag and
contributes no text; a paragraph/block element (`p` or `div`) reached while
the flag is set clears it; and the accumulator grows only when the resulting
flag is clear, by exactly the element's own stripped string — so all text
inside a quoted block is excluded from the sections. -/
theorem c5_body_sectioning (b : Bool) (acc : List String) (el : Node) :
    (el.name = some "blockquote" → sectionStep (b, acc) el = (true, acc))
  ∧ (el.name ≠ some "blockquote" → (el.name = some "p" ∨ el.name = some "div") →
       (sectionStep (true, acc) el).1 = false)
  ∧ ((sectionStep (b, acc) el).2 ≠ acc →
       (sectionStep (b, acc) el).1 = false
       ∧ ∃ s, el.string = some s ∧ (sectionStep (b, acc) el).2 = acc ++ [pyStripS s]) := by
  refine ⟨?_, ?_, ?_⟩
  · intro h
    simp [sectionStep, h]
  · intro h1 h2
    simp only [sectionStep]
    rw [if_neg h1, if_pos (And.intro trivial h2)]
    cases el.string with
    | none => rfl
    | some s =>
      simp only []
      by_cases hs : s = ""
      · rw [if_neg (by simp [hs])]
      · rw [if_pos (And.intro trivial hs)]
  · intro hne
    by_cases h1 : el.name = some "blockquote"
    · exact absurd (by simp [sectionStep, h1]) hne
    · simp only [sectionStep] at hne ⊢
      rw [if_neg h1] at hne ⊢
      cases hs : el.string with
      | none =>
        rw [hs] at hne
        exact absurd rfl hne
      | some s =>
        rw [hs] at hne
        simp only [] at hne ⊢
        by_cases hc :
            (if b = true ∧ (el.name = some "p" ∨ el.name = some "div") then false else b) = false
            ∧ s ≠ ""
        · rw [if_pos hc]
          exact ⟨hc.1, s, rfl, rfl⟩
        · rw [if_neg hc] at hne
          exact absurd rfl hne

/-- C5 witness: a blockquote is skipped with the flag set, a following `p`
clears the flag, and a plain text node appends its stripped text. -/
theorem c5_body_sectioning_witness :
    sectionStep (false, []) (Node.elem "blockquote" [Node.text "q"]) = (true, [])
  ∧ (sectionStep (true, []) (Node.elem "p" [Node.text "t"])).1 = false
  ∧ ((sectionStep (false, []) (Node.text " hello ")).1 = false
       ∧ ∃ s, (Node.text " hello ").string = some s
            ∧ (sectionStep (false, []) (Node.text " hello ")).2 = [] ++ [pyStripS s]) :=
  ⟨(c5_body_sectioning false [] (Node.elem "blockquote" [Node.text "q"])).1 rfl,
   (c5_body_sectioning true [] (Node.elem "p" [Node.text "t"])).2.1 (by decide) (Or.inl rfl),
   (c5_body_sectioning false [] (Node.text " hello ")).2.2 (by decide)⟩

theorem crawl_loop_cons (pattern : String → Bool) (cutoff : Date)
    (ev : Option (List Fragment)) (rest : List (Option (List Fragment))) (acc : List Post) :
    crawl_loop pattern cutoff (ev :: rest) acc =
      if (eventOutcome pattern cutoff ev).2 = true
      then acc ++ (eventOutcome pattern cutoff ev).1
      else crawl_loop pattern cutoff rest (acc ++ (eventOutcome pattern cutoff ev).1) := by
  cases ev with
  | none => simp [crawl_loop, eventOutcome]
  | some frags =>
    cases hp : process_page (some frags) pattern cutoff with
    | none => simp [crawl_loop, eventOutcome, hp]
    | some r =>
      cases r with
      | mk posts reached =>
        cases reached
        · simp [crawl_loop, eventOutcome, hp]
        · simp [crawl_loop, eventOutcome, hp]

/-- C3: once a completed page signals the cutoff, the coordinator breaks out
of the completion loop: the result is independent of every event that would
complete later (no further dispatch is consumed), and the posts accumulated
from the pages completed before the signal — wherever those pages sat in the
request order — are all kept, in order, together with the signalling page's
own posts. -/
theorem c3_coordinator_cutoff (pattern : String → Bool) (cutoff : Date) :
    ∀ (evs1 evs2 : List (Option (List Fragment))) (e : Option (List Fragment))
      (acc : List Post),
      (∀ ev ∈ evs1, (eventOutcome pattern cutoff ev).2 = false) →
      (eventOutcome pattern cutoff e).2 = true →
      crawl_loop pattern cutoff (evs1 ++ e :: evs2) acc
        = acc ++ (evs1.map (fun ev => (eventOutcome pattern cutoff ev).1)).flatten
              ++ (eventOutcome pattern cutoff e).1 := by
  intro evs1
  induction evs1 with
  | nil =>
    intro evs2 e acc h1 h2
    rw [List.nil_append, crawl_loop_cons, if_pos h2]
    simp
  | cons ev rest ih =>
    intro evs2 e acc h1 h2
    have hev : (eventOutcome pattern cutoff ev).2 = false := h1 ev (by simp)
    have hcond : ¬ ((eventOutcome pattern cutoff ev).2 = true) := by simp [hev]
    rw [List.cons_append, crawl_loop_cons, if_neg hcond]
    rw [ih evs2 e (acc ++ (eventOutcome pattern cutoff ev).1)
        (fun x hx => h1 x (List.mem_cons_of_mem ev hx)) h2]
    simp [List.append_assoc]

/-- C3 witness: with two cutoff-free completions (a failed fetch and a page
yielding `postGood`), then a cutoff page and one more completion, the loop
keeps `postGood`, adds the cutoff page's (empty) posts, and ignores the
trailing completion. -/
theorem c3_coordinator_cutoff_witness :
    crawl_loop podcastPatternMatches cutoffDate2024
        ([none, some [fragGood]] ++ some [fragOld] :: [some [fragGood]]) []
      = [] ++ (([none, some [fragGood]]).map
            (fun ev => (eventOutcome podcastPatternMatches cutoffDate2024 ev).1)).flatten
          ++ (eventOutcome podcastPatternMatches cutoffDate2024 (some [fragOld])).1 :=
  c3_coordinator_cutoff podcastPatternMatches cutoffDate2024
    [none, some [fragGood]] [some [fragGood]] (some [fragOld]) []
    (by decide) (by decide)

theorem foldl_addIfNew (m : String → Bool) :
    ∀ (cands L : List String), cands.Nodup →
      cands.foldl (fun qs q => if m q ∧ q ∉ qs then qs ++ [q] else qs) L
        = L ++ cands.filter (fun q => m q && decide (q ∉ L)) := by
  intro cands
  induction cands with
  | nil => intro L h; simp
  | cons c cs ih =>
    intro L h
    obtain ⟨hc, hcs⟩ := List.nodup_cons.mp h
    rw [List.foldl_cons]
    by_cases hm : m c ∧ c ∉ L
    · rw [if_pos hm, ih (L ++ [c]) hcs]
      have hfilter : cs.filter (fun q => m q && decide (q ∉ L ++ [c]))
          = cs.filter (fun q => m q && decide (q ∉ L)) := by
        apply List.filter_congr
        intro q hq
        have hqc : q ≠ c := fun hqc => hc (hqc ▸ hq)
        simp [List.mem_append, hqc]
      rw [hfilter, List.filter_cons]
      have hcval : (m c && decide (c ∉ L)) = true := by simp [hm.1, hm.2]
      rw [hcval]
      simp
    · rw [if_neg hm, ih L hcs, List.filter_cons]
      have hcval : (m c && decide (c ∉ L)) = false := by
        rcases not_and_or.mp hm with h1 | h1
        · have h2 : m c = false := by
            cases hmc : m c
            · rfl
            · exact absurd hmc h1
          simp [h2]
        · simp at h1
          simp [h1]
      rw [hcval]
      simp

/-- C6: the qualifiers list of a post is duplicate-free; when the post has a
(truthy) title qualifier its lowercasing is the first element; and the list
is exactly the title part, then `excellent` when matched and new, then the
other fixed qualifiers in the fixed scan order, each when matched and not
already present. -/
theorem c6_qualifier_order (p : Post) :
    (qualifiersOf p).Nodup
  ∧ (∀ q, p.title_qualifier = some q → q ≠ "" →
        (qualifiersOf p).head? = some (pyLowerS q))
  ∧ qualifiersOf p
      = titleQualifierPart p ++ excellentPart p
        ++ otherQualifiers.filter
             (fun q => bodyMatch p q &&
               decide (q ∉ titleQualifierPart p ++ excellentPart p)) := by
  have hseed :
      (if excellentMatch p ∧ "excellent" ∉ titleQualifierPart p
       then titleQualifierPart p ++ ["excellent"] else titleQualifierPart p)
      = titleQualifierPart p ++ excellentPart p := by
    unfold excellentPart
    split
    · rfl
    · simp
  have hmain : qualifiersOf p
      = titleQualifierPart p ++ excellentPart p
        ++ otherQualifiers.filter
             (fun q => bodyMatch p q &&
               decide (q ∉ titleQualifierPart p ++ excellentPart p)) := by
    unfold qualifiersOf
    simp only []
    rw [hseed]
    exact foldl_addIfNew (bodyMatch p) otherQualifiers
      (titleQualifierPart p ++ excellentPart p) (by decide)
  have hT : (titleQualifierPart p).Nodup := by
    unfold titleQualifierPart
    cases p.title_qualifier with
    | none => simp
    | some q =>
      simp only []
      split
      · simp
      · simp
  have hE : (excellentPart p).Nodup := by
    unfold excellentPart
    split
    · simp
    · simp
  have hTE : (titleQualifierPart p ++ excellentPart p).Nodup := by
    apply List.Nodup.append hT hE
    intro a haT haE
    by_cases hcond : excellentMatch p ∧ "excellent" ∉ titleQualifierPart p
    · unfold excellentPart at haE
      rw [if_pos hcond] at haE
      rw [List.mem_singleton.mp haE] at haT
      exact hcond.2 haT
    · unfold excellentPart at haE
      rw [if_neg hcond] at haE
      exact absurd haE (by simp)
  have hO : otherQualifiers.Nodup := by decide
  have hF : (otherQualifiers.filter
      (fun q => bodyMatch p q &&
        decide (q ∉ titleQualifierPart p ++ excellentPart p))).Nodup :=
    hO.filter _
  have hnodup : (qualifiersOf p).Nodup := by
    rw [hmain]
    apply List.Nodup.append hTE hF
    intro a ha haF
    have hcond := (List.mem_filter.mp haF).2
    simp only [Bool.and_eq_true, decide_eq_true_eq] at hcond
    exact hcond.2 ha
  refine ⟨hnodup, ?_, hmain⟩
  intro q hq hne
  have hTq : titleQualifierPart p = [pyLowerS q] := by
    unfold titleQualifierPart
    rw [hq]
    simp only []
    rw [if_pos hne]
  rw [hmain, hTq]
  rfl

/-- C6 witness: `postGood` has title qualifier `Excellent`; its qualifiers
list is duplicate-free and starts with `excellent`. -/
theorem c6_qualifier_order_witness :
    (qualifiersOf postGood).Nodup ∧ (qualifiersOf postGood).head? = some "excellent" := by
  refine ⟨(c6_qualifier_order postGood).1, ?_⟩
  have h := (c6_qualifier_order postGood).2.1 "Excellent" rfl (by decide)
  rw [h]
  decide

theorem foldl_append_annotate (score : String → Rat) :
    ∀ (l : List Post) (init : List AnnotatedPost),
      l.foldl (fun results post => results ++ [annotatePost score post]) init
        = init ++ l.map (annotatePost score) := by
  intro l
  induction l with
  | nil => intro init; simp
  | cons p ps ih =>
    intro init
    rw [List.foldl_cons, ih]
    simp

/-- C7: the annotation stage is a pure function of its input, producing one
annotated record per input post in the same order — it equals the map of the
single-post annotation over the input, and in particular preserves length
and yields the same output on every run. -/
theorem c7_annotation_functional (score : String → Rat) (posts : List Post) :
    analyze_posts score posts = posts.map (annotatePost score)
  ∧ (analyze_posts score posts).length = posts.length := by
  have h : analyze_posts score posts = posts.map (annotatePost score) := by
    unfold analyze_posts
    by_cases hp : posts = []
    · rw [if_pos hp, hp]
      rfl
    · rw [if_neg hp, foldl_append_annotate]
      simp
  exact ⟨h, by rw [h, List.length_map]⟩

/-- C8: a post with an empty commentary gets sentiment score exactly 0 and
the scorer is never consulted (the annotation is the same for every scorer);
a post with non-empty commentary gets the scorer's value on that
commentary. -/
theorem c8_empty_body_sentiment (score : String → Rat) (p : Post) :
    (p.commentary = "" →
       (annotatePost score p).sentiment_score = 0
       ∧ ∀ score2 : String → Rat, annotatePost score p = annotatePost score2 p)
  ∧ (p.commentary ≠ "" →
       (annotatePost score p).sentiment_score = score p.commentary) := by
  constructor
  · intro h
    constructor
    · simp [annotatePost, h]
    · intro score2
      simp [annotatePost, h]
  · intro h
    simp [annotatePost, h]

/-- C8 witness: the empty-bodied post scores 0 under the constant-1 scorer
and annotates identically under two different scorers; `postGood` scores 1
under the constant-1 scorer. -/
theorem c8_empty_body_sentiment_witness :
    (annotatePost (fun _ => (1 : Rat)) postEmptyBody).sentiment_score = 0
  ∧ annotatePost (fun _ => (1 : Rat)) postEmptyBody
      = annotatePost (fun _ => (0 : Rat)) postEmptyBody
  ∧ (annotatePost (fun _ => (1 : Rat)) postGood).sentiment_score = 1 := by
  refine ⟨((c8_empty_body_sentiment (fun _ => (1 : Rat)) postEmptyBody).1 rfl).1,
    ((c8_empty_body_sentiment (fun _ => (1 : Rat)) postEmptyBody).1 rfl).2 (fun _ => (0 : Rat)),
    ?_⟩
  exact (c8_empty_body_sentiment (fun _ => (1 : Rat)) postGood).2 (by decide)
